import Mathlib

set_option maxRecDepth 40000

/-!
Shallow embedding of the web-search pagination engine of `fkmcps`
(`src/tools/search/text_search.go`, with types from
`src/tools/search/model.go` and session defaults from
`src/tools/search/search.go`).

The HTML layer (goquery traversal) is abstracted at the boundary of the
facts the Go code extracts from the DOM: each candidate result entry is
represented by whether its title anchor exists, the anchor's text, its
`href` attribute, whether its snippet anchor exists, and the snippet
text; each page additionally carries whether a `div.nav-link` element is
present and the ordered hidden form fields of the last form.  Everything
from that boundary on (skipping rules, per-page dedup by href,
continuation-token construction, status-code classification, the
accumulate/truncate/pace loop, validation) is translated line by line
from the Go source.
-/

namespace Fkmcps

/-- Result record, from `TextSearchResult` in `model.go` (fields `Title`,
`URL`, `Summary`). -/
structure TextSearchResult where
  Title : String
  URL : String
  Summary : String
deriving DecidableEq, Repr

/-- Response record, from `TextSearchResponse` in `model.go`.  A success
outcome sets `Message` (and `Results` when non-empty); an error outcome
sets only `ErrorMessage`. -/
structure TextSearchResponse where
  Message : String := ""
  Results : List TextSearchResult := []
  ErrorMessage : String := ""
deriving DecidableEq, Repr

/-- Request record, from `TextSearchRequest` in `model.go`.  `TimeRange`
is a Go string type; the defined codes are "", "d", "w", "m", "y". -/
structure TextSearchRequest where
  Query : String
  TimeRange : String := ""
deriving DecidableEq, Repr

/-- Region code `RegionWT` ("World", the default) from `model.go`. -/
def RegionWT : String := "wt-wt"

/-- One candidate result entry of a page, at the boundary of the goquery
calls in `parseTextHTMLSearchResponse`: `hasTitle` is whether
`s.Find("h2.result__title > a")` is non-empty, `titleText` its text,
`href` its `href` attribute ("" when absent), `hasSummary` whether
`s.Find("a.result__snippet")` is non-empty, `summaryText` its text. -/
structure RawEntry where
  hasTitle : Bool
  titleText : String
  href : String
  hasSummary : Bool
  summaryText : String
deriving DecidableEq, Repr

/-- One fetched page of markup, at the boundary of the goquery calls:
the `div#links div.web-result` entries in document order, whether a
`div.nav-link` element exists, and the hidden input name/value pairs of
the last form in document order. -/
structure RawPage where
  entries : List RawEntry
  hasNavLinks : Bool
  hiddenFields : List (String × String)
deriving DecidableEq, Repr

/-- Go's `strings.TrimSpace`, on the string's character list: drop
leading and trailing white space (white space modelled by
`Char.isWhitespace`). -/
def trimSpace (s : String) : String :=
  ⟨((s.data.dropWhile Char.isWhitespace).reverse.dropWhile Char.isWhitespace).reverse⟩

/-- Go's `strings.HasPrefix`, on the strings' character lists. -/
def goStartsWith (s pre : String) : Bool :=
  pre.data.isPrefixOf s.data

/-- The `url.Values.Set` operation of Go's `net/url`: replace the value
bound to `name`, or add the pair when `name` is absent. -/
def valuesSet (vs : List (String × String)) (name value : String) :
    List (String × String) :=
  if vs.any (fun p => p.1 = name) then
    vs.map (fun p => if p.1 = name then (name, value) else p)
  else
    vs ++ [(name, value)]

/-- Entry loop of `parseTextHTMLSearchResponse` (text_search.go lines
176-205): for each `web-result` entry, skip it when the title anchor is
absent, when `href` is empty, when `href` was already seen on this page
or starts with one of the two redirect/ad prefixes, or when the snippet
anchor is absent; otherwise record the trimmed title text, the href and
the trimmed snippet text, and mark the href as seen. -/
def parseEntries : List RawEntry → List String → List TextSearchResult
  | [], _ => []
  | e :: es, seen =>
    if e.hasTitle = false then parseEntries es seen
    else if e.href = "" then parseEntries es seen
    else if seen.contains e.href
        || goStartsWith e.href "http://www.google.com/search?q="
        || goStartsWith e.href "https://duckduckgo.com/y.js?ad_domain" then
      parseEntries es seen
    else if e.hasSummary = false then parseEntries es seen
    else
      { Title := trimSpace e.titleText, URL := e.href,
        Summary := trimSpace e.summaryText } :: parseEntries es (e.href :: seen)

/-- Page parser `parseTextHTMLSearchResponse` (text_search.go lines
162-224): extract the result records with a fresh seen-href set, then,
when no `div.nav-link` exists, return an empty continuation body;
otherwise build the continuation body from the hidden fields of the last
form via `url.Values.Set`. -/
def parseTextHTMLSearchResponse (p : RawPage) :
    List TextSearchResult × List (String × String) :=
  let results := parseEntries p.entries []
  if p.hasNavLinks = false then (results, [])
  else (results, p.hiddenFields.foldl (fun acc kv => valuesSet acc kv.1 kv.2) [])

/-- Body of one HTTP response as far as the Go code inspects it after
the status check: reading the body can fail, parsing can fail, or a page
is obtained. -/
inductive ReadResult where
  | readError (msg : String)
  | parseError (msg : String)
  | page (p : RawPage)
deriving DecidableEq, Repr

/-- Outcome of `c.httpCli.Do(req)` for one request: a transport error,
or an HTTP response with a status code and a body. -/
inductive FetchResult where
  | transportError (msg : String)
  | httpResponse (status : Nat) (body : ReadResult)
deriving DecidableEq, Repr

/-- One round of `doTextHTMLSearch` (text_search.go lines 130-160):
transport errors, then status 429, status 403, any other status ≠ 200,
then body read failure, then parse failure, each mapped to its error
message; only a readable, parseable 200 response yields records and a
continuation body. -/
def doTextHTMLSearch (f : FetchResult) :
    Except String (List TextSearchResult × List (String × String)) :=
  match f with
  | .transportError msg =>
      .error ("network error, please check your connection: " ++ msg)
  | .httpResponse status body =>
      if status = 429 then
        .error "rate limit exceeded (status 429), please wait a moment and try again"
      else if status = 403 then
        .error "access forbidden (status 403), the search service may be blocking requests"
      else if status ≠ 200 then
        .error ("search service returned status " ++ toString status
          ++ ", please try again later")
      else
        match body with
        | .readError msg => .error ("failed to read search results: " ++ msg)
        | .parseError msg =>
            .error ("failed to parse search results: failed to parse response: " ++ msg)
        | .page p => .ok (parseTextHTMLSearchResponse p)

/-- Post-loop epilogue of `TextSearch` (text_search.go lines 73-84): an
empty accumulator yields the "No results found" success message with no
records attached; otherwise a count-bearing success message with the
records. -/
def finishResults (acc : List TextSearchResult) : TextSearchResponse :=
  if acc.isEmpty then
    { Message := "No results found for your query. Try using different keywords or broader search terms." }
  else
    { Message := "Found " ++ toString acc.length ++ " results successfully.",
      Results := acc }

/-- Pagination loop of `TextSearch` (text_search.go lines 36-71), one
list element per request the environment answers.  A failed round
returns the wrapped error message and discards the accumulator; a page
with zero records breaks; otherwise the records are appended, and the
loop truncates and breaks at `maxResults`, breaks on an empty
continuation body, or paces and loops.  `none` means the environment
list was exhausted while the loop still wanted a page, so this run does
not describe a complete execution. -/
def textSearchLoop (maxResults : Nat) (acc : List TextSearchResult) :
    List FetchResult → Option TextSearchResponse
  | [] => none
  | f :: rest =>
    match doTextHTMLSearch f with
    | .error msg =>
        some { ErrorMessage := "search request failed: " ++ msg
          ++ ". Please try again or rephrase your query" }
    | .ok (resultsTmp, nextReqBody) =>
      if resultsTmp.isEmpty then some (finishResults acc)
      else
        let results := acc ++ resultsTmp
        if maxResults ≤ results.length then
          some (finishResults (results.take maxResults))
        else if nextReqBody.isEmpty then some (finishResults results)
        else textSearchLoop maxResults results rest

/-- Driver `TextSearch` (text_search.go lines 16-85): validate the query
(empty, then byte length over 500 — Go's `len` on a string counts UTF-8
bytes), then run the pagination loop on an empty accumulator.  The
environment `fetches` answers the successive HTTP requests. -/
def TextSearch (maxResults : Nat) (input : TextSearchRequest)
    (fetches : List FetchResult) : Option TextSearchResponse :=
  if input.Query = "" then
    some { ErrorMessage := "search query is required, please provide a query string" }
  else if 500 < input.Query.utf8ByteSize then
    some { ErrorMessage := "search query is too long (max 500 characters), please shorten your query" }
  else
    textSearchLoop maxResults [] fetches

/-- Initial request body `buildTextHTMLRequestBody` (text_search.go
lines 99-128): keys `q`, `b`, `kl`, `df`; `kl` is overwritten with the
region code unless the region is `RegionWT`; `df` is overwritten with
the time-range code when it is one of d/w/m/y. -/
def buildTextHTMLRequestBody (query timeRange region : String) :
    List (String × String) :=
  let body := [("q", query), ("b", ""), ("kl", ""), ("df", "")]
  let body := if region ≠ RegionWT then valuesSet body "kl" region else body
  let body :=
    if timeRange = "d" ∨ timeRange = "w" ∨ timeRange = "m" ∨ timeRange = "y" then
      valuesSet body "df" timeRange
    else body
  body

/-- Substring occurrence, used to state the message-content claims. -/
def ContainsSubstr (s pat : String) : Prop :=
  ∃ a b, s = a ++ pat ++ b

/-- Inter-page pacing delay of the loop, in time units: the constant of
`<-time.After(3 * time.Second)` at text_search.go line 70. -/
def pacingDelay : Nat := 3

/-- Whether the invocation's context gets cancelled strictly before the
given point in time. -/
def cancelBefore (cancelAt : Option Nat) (deadline : Nat) : Bool :=
  match cancelAt with
  | none => false
  | some tc => tc < deadline

/-- Error outcome produced when `c.httpCli.Do` aborts because the
request's context was cancelled, wrapped first by `doTextHTMLSearch`
(line 133) and then by the loop (line 50). -/
def ctxErrorResponse : TextSearchResponse :=
  { ErrorMessage := "search request failed: network error, please check your connection: context canceled. Please try again or rephrase your query" }

/-- Timed pagination loop: the loop of text_search.go lines 36-71 with
explicit time and an explicit cancellation instant.  Each request takes
`reqDur` units.  Context consultation follows Go semantics of the
constructs used: `c.httpCli.Do(req)` (line 131) observes the request
context, so a context cancelled strictly before the response would
complete (`tc < t + reqDur`) aborts the round at time `max t tc` with
the wrapped context error; `<-time.After(3 * time.Second)` (line 70)
performs no select on `ctx.Done()`, so the delay always contributes its
full `pacingDelay` units regardless of `cancelAt`.  The returned `Nat`
is the time at which the call returns. -/
def timedSearchLoop (maxResults reqDur : Nat) (cancelAt : Option Nat) :
    List FetchResult → Nat → List TextSearchResult →
    Option (TextSearchResponse × Nat)
  | [], _, _ => none
  | f :: rest, t, acc =>
    if cancelBefore cancelAt (t + reqDur) then
      some (ctxErrorResponse, max t (cancelAt.getD 0))
    else
      match doTextHTMLSearch f with
      | .error msg =>
          some ({ ErrorMessage := "search request failed: " ++ msg
            ++ ". Please try again or rephrase your query" }, t + reqDur)
      | .ok (resultsTmp, nextReqBody) =>
        if resultsTmp.isEmpty then some (finishResults acc, t + reqDur)
        else
          let results := acc ++ resultsTmp
          if maxResults ≤ results.length then
            some (finishResults (results.take maxResults), t + reqDur)
          else if nextReqBody.isEmpty then some (finishResults results, t + reqDur)
          else timedSearchLoop maxResults reqDur cancelAt rest
            (t + reqDur + pacingDelay) results

/-- Timed run of the pagination loop from time 0 with an empty
accumulator, as `TextSearch` does after validation. -/
def timedTextSearch (maxResults reqDur : Nat) (cancelAt : Option Nat)
    (fetches : List FetchResult) : Option (TextSearchResponse × Nat) :=
  timedSearchLoop maxResults reqDur cancelAt fetches 0 []

/-- Query of 200 CJK characters: 200 runes, 600 UTF-8 bytes. -/
def cjkQuery : String := String.mk (List.replicate 200 '搜')

/-- Fetch environment for the counterexample run about cancellation
during the pacing delay: a successful first page with one record and a
non-empty continuation body, then a second page. -/
def cancelDuringDelayFetches : List FetchResult :=
  [.httpResponse 200 (.page ⟨[⟨true, "t", "http://a", true, "s"⟩], true, [("a", "b")]⟩),
   .httpResponse 200 (.page ⟨[], false, []⟩)]

/-- Fetch environment whose single page contains one entry whose title
anchor exists but has empty text. -/
def emptyTitleFetches : List FetchResult :=
  [.httpResponse 200 (.page ⟨[⟨true, "", "http://example.com/a", true, "snip"⟩], false, []⟩)]

/-- Outcome of running `TextSearch` on `emptyTitleFetches`. -/
def emptyTitleResponse : TextSearchResponse :=
  { Message := "Found 1 results successfully.",
    Results := [{ Title := "", URL := "http://example.com/a", Summary := "snip" }],
    ErrorMessage := "" }

/-!
Helper lemmas shared by the claim theorems.
-/

/-- Both branches of the epilogue leave `ErrorMessage` empty: a
completed loop is a success outcome. -/
theorem finishResults_errorMessage (l : List TextSearchResult) :
    (finishResults l).ErrorMessage = "" := by
  unfold finishResults; split <;> rfl

/-- The epilogue attaches either no records or exactly the accumulator. -/
theorem finishResults_results (l : List TextSearchResult) :
    (finishResults l).Results = [] ∨ (finishResults l).Results = l := by
  unfold finishResults; split
  · exact Or.inl rfl
  · exact Or.inr rfl

/-- C7: query validation short-circuits before any network activity: an
empty query yields an error outcome whose message contains "query is
required" with zero results, a query of more than 500 bytes yields an
error outcome whose message contains "too long" with zero results, and
in both cases the outcome is the same for every fetch environment, so
no HTTP request is consulted. -/
theorem textSearch_validation_short_circuits :
    (∀ (maxResults : Nat) timeRange fetches,
       TextSearch maxResults ⟨"", timeRange⟩ fetches =
         some { ErrorMessage := "search query is required, please provide a query string" }) ∧
    ContainsSubstr "search query is required, please provide a query string"
      "query is required" ∧
    (∀ (maxResults : Nat) (input : TextSearchRequest) fetches,
       500 < input.Query.utf8ByteSize →
       TextSearch maxResults input fetches =
         some { ErrorMessage := "search query is too long (max 500 characters), please shorten your query" }) ∧
    ContainsSubstr "search query is too long (max 500 characters), please shorten your query"
      "too long" := by
  refine ⟨fun maxResults timeRange fetches => rfl,
    ⟨"search ", ", please provide a query string", by decide⟩, ?_,
    ⟨"search query is ", " (max 500 characters), please shorten your query", by decide⟩⟩
  intro maxResults input fetches h
  unfold TextSearch
  rw [if_neg, if_pos h]
  intro hq
  rw [hq] at h
  exact absurd h (by decide)

/-- C7 witness: the validation theorem applied to the empty query and to
a 501-byte query. -/
theorem textSearch_validation_short_circuits_witness :
    TextSearch 10 ⟨"", ""⟩ [] =
      some { ErrorMessage := "search query is required, please provide a query string" } ∧
    TextSearch 10 ⟨String.mk (List.replicate 501 'a'), ""⟩ [] =
      some { ErrorMessage := "search query is too long (max 500 characters), please shorten your query" } :=
  ⟨textSearch_validation_short_circuits.1 10 "" [],
   textSearch_validation_short_circuits.2.2.1 10 ⟨String.mk (List.replicate 501 'a'), ""⟩ []
     (by decide)⟩

/-- C10: the length validation counts UTF-8 bytes, not characters: a
query of 200 three-byte CJK characters has 200 characters (within the
500-character limit) but 600 bytes, and `TextSearch` returns the
"too long" error outcome for every fetch environment, so without
sending any request. -/
theorem textSearch_length_counts_utf8_bytes :
    (∀ (maxResults : Nat) fetches,
       TextSearch maxResults ⟨cjkQuery, ""⟩ fetches =
         some { ErrorMessage := "search query is too long (max 500 characters), please shorten your query" }) ∧
    cjkQuery.length = 200 ∧ cjkQuery.utf8ByteSize = 600 := by
  refine ⟨fun maxResults fetches => ?_, by decide, by decide⟩
  unfold TextSearch
  rw [if_neg (by decide), if_pos (by decide)]

/-- C5 counterexample: status 202 is a 2xx status, yet the code
classifies it as an upstream error ("search service returned status
202") instead of letting it proceed as a success — the success check is
`status == 200`, not "any 2xx". -/
theorem doTextHTMLSearch_status_202_counterexample :
    doTextHTMLSearch (.httpResponse 202 (.page ⟨[], false, []⟩)) =
      .error "search service returned status 202, please try again later" ∧
    200 ≤ 202 ∧ 202 < 300 := by
  refine ⟨?_, by decide, by decide⟩
  rfl

/-- C5 (amended): status 429 is classified as rate-limited, status 403
as blocked, and any other status different from 200 — including 2xx
statuses other than 200 — as an upstream error carrying that status
code; only a status of exactly 200 proceeds as a success. -/
theorem doTextHTMLSearch_status_classification :
    (∀ body, doTextHTMLSearch (.httpResponse 429 body) =
       .error "rate limit exceeded (status 429), please wait a moment and try again") ∧
    (∀ body, doTextHTMLSearch (.httpResponse 403 body) =
       .error "access forbidden (status 403), the search service may be blocking requests") ∧
    (∀ (status : Nat) body, status ≠ 429 → status ≠ 403 → status ≠ 200 →
       doTextHTMLSearch (.httpResponse status body) =
         .error ("search service returned status " ++ toString status
           ++ ", please try again later")) ∧
    (∀ p, doTextHTMLSearch (.httpResponse 200 (.page p)) =
       .ok (parseTextHTMLSearchResponse p)) := by
  refine ⟨fun body => rfl, fun body => rfl, ?_, fun p => rfl⟩
  intro status body h429 h403 h200
  simp only [doTextHTMLSearch]
  rw [if_neg h429, if_neg h403, if_pos h200]

/-- C5 witness: classification at statuses 429, 403, 500 and 200. -/
theorem doTextHTMLSearch_status_classification_witness :
    doTextHTMLSearch (.httpResponse 429 (.page ⟨[], false, []⟩)) =
      .error "rate limit exceeded (status 429), please wait a moment and try again" ∧
    doTextHTMLSearch (.httpResponse 403 (.page ⟨[], false, []⟩)) =
      .error "access forbidden (status 403), the search service may be blocking requests" ∧
    doTextHTMLSearch (.httpResponse 500 (.page ⟨[], false, []⟩)) =
      .error ("search service returned status " ++ toString 500
        ++ ", please try again later") ∧
    doTextHTMLSearch (.httpResponse 200 (.page ⟨[], false, []⟩)) =
      .ok (parseTextHTMLSearchResponse ⟨[], false, []⟩) :=
  ⟨doTextHTMLSearch_status_classification.1 (.page ⟨[], false, []⟩),
   doTextHTMLSearch_status_classification.2.1 (.page ⟨[], false, []⟩),
   doTextHTMLSearch_status_classification.2.2.1 500 (.page ⟨[], false, []⟩)
     (by decide) (by decide) (by decide),
   doTextHTMLSearch_status_classification.2.2.2 ⟨[], false, []⟩⟩

/-- C9: for every query and region, and every defined time-range code,
the initial request body is exactly the four pairs `q` (the query text),
`b` (empty), `kl` (the region code, or empty when the region is the
"world" region `wt-wt`), and `df` (the time-range code, which is the
empty string for "any" and the single-letter code d/w/m/y otherwise). -/
theorem buildTextHTMLRequestBody_initial_keys :
    ∀ (query timeRange region : String),
      (timeRange = "" ∨ timeRange = "d" ∨ timeRange = "w" ∨ timeRange = "m" ∨
        timeRange = "y") →
      buildTextHTMLRequestBody query timeRange region =
        [("q", query), ("b", ""),
         ("kl", if region = RegionWT then "" else region),
         ("df", timeRange)] := by
  intro query timeRange region htr
  unfold buildTextHTMLRequestBody RegionWT
  by_cases hr : region = "wt-wt" <;>
    rcases htr with h | h | h | h | h <;> subst h <;> simp [valuesSet, hr]

/-- C9 witness: the initial body for a concrete query, a non-world
region and the week time-range, and for the world region with the "any"
time-range. -/
theorem buildTextHTMLRequestBody_initial_keys_witness :
    buildTextHTMLRequestBody "golang" "w" "us-en" =
      [("q", "golang"), ("b", ""),
       ("kl", if "us-en" = RegionWT then "" else "us-en"), ("df", "w")] ∧
    buildTextHTMLRequestBody "golang" "" "wt-wt" =
      [("q", "golang"), ("b", ""),
       ("kl", if "wt-wt" = RegionWT then "" else "wt-wt"), ("df", "")] :=
  ⟨buildTextHTMLRequestBody_initial_keys "golang" "w" "us-en"
     (Or.inr (Or.inr (Or.inl rfl))),
   buildTextHTMLRequestBody_initial_keys "golang" "" "wt-wt" (Or.inl rfl)⟩

/-- Any outcome of the pagination loop that carries an error message
carries no records: the error branch discards the accumulator and the
success epilogue never sets an error message. -/
theorem textSearchLoop_error_results_eq_nil (fetches : List FetchResult) :
    ∀ (maxResults : Nat) acc r, textSearchLoop maxResults acc fetches = some r →
      r.ErrorMessage ≠ "" → r.Results = [] := by
  induction fetches with
  | nil => intro maxResults acc r h _; simp [textSearchLoop] at h
  | cons f rest ih =>
    intro maxResults acc r h herr
    rw [textSearchLoop] at h
    cases hdo : doTextHTMLSearch f with
    | error msg =>
      rw [hdo] at h
      injection h with h
      subst h
      rfl
    | ok pair =>
      rcases pair with ⟨resultsTmp, nextReqBody⟩
      rw [hdo] at h
      simp only at h
      split_ifs at h with h1 h2 h3
      · injection h with h; subst h
        exact absurd (finishResults_errorMessage acc) herr
      · injection h with h; subst h
        exact absurd (finishResults_errorMessage _) herr
      · injection h with h; subst h
        exact absurd (finishResults_errorMessage _) herr
      · exact ih maxResults (acc ++ resultsTmp) r h herr

/-- C2: a failed round on any page (transport, status, read or parse
error) makes `TextSearch` return an error outcome with an empty status
message and zero attached results, for every accumulator previously
built from earlier pages — prior pages' results are discarded; and, at
the driver boundary, every outcome with a non-empty error message
carries zero results. -/
theorem textSearch_page_failure_discards_results :
    (∀ (maxResults : Nat) acc f rest msg, doTextHTMLSearch f = .error msg →
       textSearchLoop maxResults acc (f :: rest) =
         some ⟨"", [], "search request failed: " ++ msg
           ++ ". Please try again or rephrase your query"⟩) ∧
    (∀ (maxResults : Nat) input fetches r,
       TextSearch maxResults input fetches = some r →
       r.ErrorMessage ≠ "" → r.Results = []) := by
  constructor
  · intro maxResults acc f rest msg hdo
    rw [textSearchLoop, hdo]
  · intro maxResults input fetches r h herr
    unfold TextSearch at h
    split_ifs at h
    · injection h with h; subst h; rfl
    · injection h with h; subst h; rfl
    · exact textSearchLoop_error_results_eq_nil fetches maxResults [] r h herr

/-- C2 witness: a transport failure on the second round, after a first
page already produced one record, yields the error outcome with zero
results; and the validation error outcome carries zero results. -/
theorem textSearch_page_failure_discards_results_witness :
    textSearchLoop 10 [{ Title := "t", URL := "u", Summary := "s" }]
        [.transportError "connection refused"] =
      some ⟨"", [], "search request failed: "
        ++ ("network error, please check your connection: " ++ "connection refused")
        ++ ". Please try again or rephrase your query"⟩ ∧
    (⟨"", [], "search query is required, please provide a query string"⟩ :
      TextSearchResponse).Results = [] :=
  ⟨textSearch_page_failure_discards_results.1 10
     [{ Title := "t", URL := "u", Summary := "s" }] (.transportError "connection refused")
     [] ("network error, please check your connection: " ++ "connection refused") rfl,
   textSearch_page_failure_discards_results.2 10 ⟨"", ""⟩ []
     ⟨"", [], "search query is required, please provide a query string"⟩
     rfl (by decide)⟩

/-- Every completed run of the pagination loop whose accumulator starts
within the limit returns at most `maxResults` records. -/
theorem textSearchLoop_results_length_le (fetches : List FetchResult) :
    ∀ (maxResults : Nat) acc r, acc.length ≤ maxResults →
      textSearchLoop maxResults acc fetches = some r →
      r.Results.length ≤ maxResults := by
  induction fetches with
  | nil => intro maxResults acc r _ h; simp [textSearchLoop] at h
  | cons f rest ih =>
    intro maxResults acc r hacc h
    rw [textSearchLoop] at h
    cases hdo : doTextHTMLSearch f with
    | error msg =>
      rw [hdo] at h
      injection h with h
      subst h
      exact Nat.zero_le _
    | ok pair =>
      rcases pair with ⟨resultsTmp, nextReqBody⟩
      rw [hdo] at h
      simp only at h
      split_ifs at h with h1 h2 h3
      · injection h with h; subst h
        rcases finishResults_results acc with hres | hres <;> rw [hres]
        · exact Nat.zero_le _
        · exact hacc
      · injection h with h; subst h
        rcases finishResults_results ((acc ++ resultsTmp).take maxResults) with hres | hres <;>
          rw [hres]
        · exact Nat.zero_le _
        · rw [List.length_take]
          exact min_le_left _ _
      · injection h with h; subst h
        rcases finishResults_results (acc ++ resultsTmp) with hres | hres <;> rw [hres]
        · exact Nat.zero_le _
        · exact Nat.le_of_lt (Nat.lt_of_not_le h2)
      · exact ih maxResults (acc ++ resultsTmp) r
          (Nat.le_of_lt (Nat.lt_of_not_le h2)) h

/-- C1: every returned outcome carries at most `maxResults` records;
and, in a round whose appended records reach or exceed `maxResults`,
the driver truncates the accumulator to exactly `maxResults` records and
terminates — the outcome is the same for every remaining fetch
environment, so no further page is requested. -/
theorem textSearch_results_le_maxResults :
    (∀ (maxResults : Nat) input fetches r,
       TextSearch maxResults input fetches = some r →
       r.Results.length ≤ maxResults) ∧
    (∀ (maxResults : Nat) acc f resultsTmp nextReqBody rest,
       doTextHTMLSearch f = .ok (resultsTmp, nextReqBody) → resultsTmp ≠ [] →
       maxResults ≤ acc.length + resultsTmp.length →
       textSearchLoop maxResults acc (f :: rest) =
         some (finishResults ((acc ++ resultsTmp).take maxResults)) ∧
       ((acc ++ resultsTmp).take maxResults).length = maxResults) := by
  constructor
  · intro maxResults input fetches r h
    unfold TextSearch at h
    split_ifs at h
    · injection h with h; subst h; exact Nat.zero_le _
    · injection h with h; subst h; exact Nat.zero_le _
    · exact textSearchLoop_results_length_le fetches maxResults [] r (Nat.zero_le _) h
  · intro maxResults acc f resultsTmp nextReqBody rest hdo hne hge
    have hempty : resultsTmp.isEmpty = false := by
      cases resultsTmp with
      | nil => exact absurd rfl hne
      | cons a l => rfl
    have hlen : maxResults ≤ (acc ++ resultsTmp).length := by
      rw [List.length_append]; exact hge
    constructor
    · rw [textSearchLoop, hdo]
      simp only [hempty, Bool.false_eq_true, if_false, if_pos hlen]
    · rw [List.length_take, List.length_append]
      exact Nat.min_eq_left hge

/-- C1 witness: a session limit of 1 with a first page carrying two
records truncates to exactly one record, and the returned outcome obeys
the limit. -/
theorem textSearch_results_le_maxResults_witness :
    (textSearchLoop 1 []
        [.httpResponse 200 (.page ⟨[⟨true, "t1", "u1", true, "s1"⟩,
           ⟨true, "t2", "u2", true, "s2"⟩], true, [("a", "b")]⟩)] =
      some (finishResults (([] ++ [(⟨"t1", "u1", "s1"⟩ : TextSearchResult),
        ⟨"t2", "u2", "s2"⟩]).take 1)) ∧
     (([] ++ [(⟨"t1", "u1", "s1"⟩ : TextSearchResult), ⟨"t2", "u2", "s2"⟩]).take 1).length = 1) ∧
    (finishResults [(⟨"t1", "u1", "s1"⟩ : TextSearchResult)]).Results.length ≤ 1 := by
  constructor
  · exact textSearch_results_le_maxResults.2 1 []
      (.httpResponse 200 (.page ⟨[⟨true, "t1", "u1", true, "s1"⟩,
        ⟨true, "t2", "u2", true, "s2"⟩], true, [("a", "b")]⟩))
      [⟨"t1", "u1", "s1"⟩, ⟨"t2", "u2", "s2"⟩] [("a", "b")] [] rfl (by decide)
      (by decide)
  · exact textSearch_results_le_maxResults.1 1 ⟨"q", ""⟩
      [.httpResponse 200 (.page ⟨[⟨true, "t1", "u1", true, "s1"⟩], false, []⟩)]
      (finishResults [⟨"t1", "u1", "s1"⟩]) (by decide)

/-- C8: when the "more results" navigation affordance is absent the
parser returns an empty continuation body; and after a successful round
whose continuation body is empty the driver terminates with whatever
was accumulated (possibly truncated), the outcome being the same for
every remaining fetch environment — no further request is issued — and
being a success outcome (empty error message). -/
theorem textSearch_empty_token_terminates :
    (∀ p : RawPage, p.hasNavLinks = false →
       (parseTextHTMLSearchResponse p).2 = []) ∧
    (∀ (maxResults : Nat) acc f resultsTmp rest,
       doTextHTMLSearch f = .ok (resultsTmp, []) →
       textSearchLoop maxResults acc (f :: rest) =
         some (finishResults (if resultsTmp.isEmpty then acc
           else if maxResults ≤ (acc ++ resultsTmp).length then
             (acc ++ resultsTmp).take maxResults
           else acc ++ resultsTmp))) ∧
    (∀ l, (finishResults l).ErrorMessage = "") := by
  refine ⟨?_, ?_, finishResults_errorMessage⟩
  · intro p h
    simp [parseTextHTMLSearchResponse, h]
  · intro maxResults acc f resultsTmp rest hdo
    rw [textSearchLoop, hdo]
    simp only [List.isEmpty_nil, if_true]
    split_ifs <;> rfl

/-- C8 witness: a second page with no navigation affordance parses to an
empty continuation body, and the loop then terminates with the two
accumulated records even though further fetch results are available. -/
theorem textSearch_empty_token_terminates_witness :
    (parseTextHTMLSearchResponse ⟨[⟨true, "t1", "u1", true, "s1"⟩], false, []⟩).2 = [] ∧
    textSearchLoop 10 [⟨"t0", "u0", "s0"⟩]
        [.httpResponse 200 (.page ⟨[⟨true, "t1", "u1", true, "s1"⟩], false, []⟩),
         .transportError "never sent"] =
      some (finishResults
        (if ([(⟨"t1", "u1", "s1"⟩ : TextSearchResult)]).isEmpty then
          [(⟨"t0", "u0", "s0"⟩ : TextSearchResult)]
        else if 10 ≤ ([(⟨"t0", "u0", "s0"⟩ : TextSearchResult)] ++
            [(⟨"t1", "u1", "s1"⟩ : TextSearchResult)]).length then
          ([(⟨"t0", "u0", "s0"⟩ : TextSearchResult)] ++
            [(⟨"t1", "u1", "s1"⟩ : TextSearchResult)]).take 10
        else [(⟨"t0", "u0", "s0"⟩ : TextSearchResult)] ++
          [(⟨"t1", "u1", "s1"⟩ : TextSearchResult)])) ∧
    (finishResults []).ErrorMessage = "" :=
  ⟨textSearch_empty_token_terminates.1 ⟨[⟨true, "t1", "u1", true, "s1"⟩], false, []⟩ rfl,
   textSearch_empty_token_terminates.2.1 10 [⟨"t0", "u0", "s0"⟩]
     (.httpResponse 200 (.page ⟨[⟨true, "t1", "u1", true, "s1"⟩], false, []⟩))
     [⟨"t1", "u1", "s1"⟩] [.transportError "never sent"] rfl,
   textSearch_empty_token_terminates.2.2 []⟩

/-- Every record produced by the entry loop has a non-empty URL: each
entry whose `href` is empty is skipped before anything is recorded. -/
theorem parseEntries_url_ne_empty :
    ∀ (es : List RawEntry) (seen : List String) x,
      x ∈ parseEntries es seen → x.URL ≠ "" := by
  intro es
  induction es with
  | nil => intro seen x hx; simp [parseEntries] at hx
  | cons e es ih =>
    intro seen x hx
    rw [parseEntries] at hx
    split_ifs at hx with h1 h2 h3 h4
    · exact ih seen x hx
    · exact ih seen x hx
    · exact ih seen x hx
    · exact ih seen x hx
    · rcases List.mem_cons.mp hx with rfl | hx
      · simpa using h2
      · exact ih _ x hx

/-- The records of a parsed page are exactly those of the entry loop. -/
theorem parseTextHTMLSearchResponse_fst (p : RawPage) :
    (parseTextHTMLSearchResponse p).1 = parseEntries p.entries [] := by
  unfold parseTextHTMLSearchResponse
  split <;> rfl

/-- Every successful classification round yields records with non-empty
URLs: they come from the page parser. -/
theorem doTextHTMLSearch_ok_url_ne_empty :
    ∀ (f : FetchResult) resultsTmp nextReqBody,
      doTextHTMLSearch f = .ok (resultsTmp, nextReqBody) →
      ∀ x ∈ resultsTmp, x.URL ≠ "" := by
  intro f resultsTmp nextReqBody h
  cases f with
  | transportError msg => exact absurd h (by simp [doTextHTMLSearch])
  | httpResponse status body =>
    simp only [doTextHTMLSearch] at h
    split_ifs at h
    cases body with
    | readError msg => exact absurd h (by simp)
    | parseError msg => exact absurd h (by simp)
    | page p =>
      simp only [Except.ok.injEq] at h
      have h1 : (parseTextHTMLSearchResponse p).1 = resultsTmp := by rw [h]
      intro x hx
      rw [← h1, parseTextHTMLSearchResponse_fst] at hx
      exact parseEntries_url_ne_empty p.entries [] x hx

/-- Completed loop runs only return records with non-empty URLs, as
long as the starting accumulator only holds such records. -/
theorem textSearchLoop_url_ne_empty (fetches : List FetchResult) :
    ∀ (maxResults : Nat) acc r, (∀ x ∈ acc, x.URL ≠ "") →
      textSearchLoop maxResults acc fetches = some r →
      ∀ x ∈ r.Results, x.URL ≠ "" := by
  induction fetches with
  | nil => intro maxResults acc r _ h; simp [textSearchLoop] at h
  | cons f rest ih =>
    intro maxResults acc r hacc h
    rw [textSearchLoop] at h
    cases hdo : doTextHTMLSearch f with
    | error msg =>
      rw [hdo] at h
      injection h with h
      subst h
      intro x hx
      simp at hx
    | ok pair =>
      rcases pair with ⟨resultsTmp, nextReqBody⟩
      rw [hdo] at h
      simp only at h
      have hnew : ∀ x ∈ acc ++ resultsTmp, x.URL ≠ "" := by
        intro x hx
        rcases List.mem_append.mp hx with hx | hx
        · exact hacc x hx
        · exact doTextHTMLSearch_ok_url_ne_empty f resultsTmp nextReqBody hdo x hx
      split_ifs at h with h1 h2 h3
      · injection h with h; subst h
        intro x hx
        rcases finishResults_results acc with hres | hres <;> rw [hres] at hx
        · simp at hx
        · exact hacc x hx
      · injection h with h; subst h
        intro x hx
        rcases finishResults_results ((acc ++ resultsTmp).take maxResults) with hres | hres <;>
          rw [hres] at hx
        · simp at hx
        · exact hnew x (List.take_subset maxResults _ hx)
      · injection h with h; subst h
        intro x hx
        rcases finishResults_results (acc ++ resultsTmp) with hres | hres <;> rw [hres] at hx
        · simp at hx
        · exact hnew x hx
      · exact ih maxResults (acc ++ resultsTmp) r hnew h

/-- C4 counterexample: an entry whose title anchor exists but has empty
text is not dropped — with the page below, `TextSearch` returns a
success outcome whose single record has an empty title, so not every
record of a returned set has a non-empty title. -/
theorem textSearch_empty_title_counterexample :
    TextSearch 10 ⟨"q", ""⟩ emptyTitleFetches = some emptyTitleResponse ∧
    ¬(∀ x ∈ emptyTitleResponse.Results, x.Title ≠ "") := by
  constructor
  · rfl
  · intro h
    exact h ⟨"", "http://example.com/a", "snip"⟩ (by simp [emptyTitleResponse]) rfl

/-- C4 (amended): every record in a returned result set has a non-empty
`url` — entries with an empty link, an absent title anchor or an absent
snippet anchor are dropped during parsing rather than surfaced as
errors — but the title is only the trimmed text of the title anchor and
may be empty; only entries whose title anchor is absent entirely are
dropped. -/
theorem textSearch_results_url_nonempty :
    ∀ (maxResults : Nat) input fetches r x,
      TextSearch maxResults input fetches = some r →
      x ∈ r.Results → x.URL ≠ "" := by
  intro maxResults input fetches r x h hx
  unfold TextSearch at h
  split_ifs at h
  · injection h with h; subst h; simp at hx
  · injection h with h; subst h; simp at hx
  · exact textSearchLoop_url_ne_empty fetches maxResults [] r (by intro y hy; simp at hy)
      h x hx

/-- C4 witness: the amended theorem applied to the empty-title run — the
record still has a non-empty URL. -/
theorem textSearch_results_url_nonempty_witness :
    (⟨"", "http://example.com/a", "snip"⟩ : TextSearchResult).URL ≠ "" :=
  textSearch_results_url_nonempty 10 ⟨"q", ""⟩ emptyTitleFetches emptyTitleResponse
    ⟨"", "http://example.com/a", "snip"⟩ rfl (by simp [emptyTitleResponse])

/-- The entry loop never records the same href twice on one page, and
records no href from the incoming seen set. -/
theorem parseEntries_nodup_urls :
    ∀ (es : List RawEntry) (seen : List String),
      ((parseEntries es seen).map TextSearchResult.URL).Nodup ∧
      ∀ x ∈ parseEntries es seen, x.URL ∉ seen := by
  intro es
  induction es with
  | nil =>
    intro seen
    exact ⟨by simp [parseEntries], by intro x hx; simp [parseEntries] at hx⟩
  | cons e es ih =>
    intro seen
    rw [parseEntries]
    split_ifs with h1 h2 h3 h4
    · exact ih seen
    · exact ih seen
    · exact ih seen
    · exact ih seen
    · simp [not_or] at h3
      have hrec := ih (e.href :: seen)
      constructor
      · rw [List.map_cons]
        refine List.nodup_cons.mpr ⟨?_, hrec.1⟩
        intro hmem
        rcases List.mem_map.mp hmem with ⟨y, hy, hyu⟩
        exact (hrec.2 y hy) (hyu ▸ List.mem_cons_self _ _)
      · intro x hx
        rcases List.mem_cons.mp hx with rfl | hx
        · simpa using h3.1.1
        · intro hmem
          exact (hrec.2 x hx) (List.mem_cons_of_mem _ hmem)

/-- C6: the parser deduplicates by url within the current page only (the
urls of one parsed page contain no duplicate), and cross-page duplicates
survive: whenever both pages of a two-page conversation contain a shared
url `u` and the accumulated total stays within `maxResults`, the final
returned result set is the plain concatenation of the two pages' records
and contains `u` at least twice. -/
theorem parseDedup_page_local_only :
    (∀ p : RawPage,
       (((parseTextHTMLSearchResponse p).1).map TextSearchResult.URL).Nodup) ∧
    (∀ (maxResults : Nat) (u : String) p1 p2 r1 t1 r2 rest,
       parseTextHTMLSearchResponse p1 = (r1, t1) →
       parseTextHTMLSearchResponse p2 = (r2, []) →
       r1 ≠ [] → r2 ≠ [] → t1 ≠ [] →
       r1.length + r2.length ≤ maxResults →
       u ∈ r1.map TextSearchResult.URL → u ∈ r2.map TextSearchResult.URL →
       textSearchLoop maxResults []
           (.httpResponse 200 (.page p1) :: .httpResponse 200 (.page p2) :: rest) =
         some (finishResults (r1 ++ r2)) ∧
       (finishResults (r1 ++ r2)).Results = r1 ++ r2 ∧
       2 ≤ ((r1 ++ r2).map TextSearchResult.URL).count u) := by
  constructor
  · intro p
    rw [parseTextHTMLSearchResponse_fst]
    exact (parseEntries_nodup_urls p.entries []).1
  · intro maxResults u p1 p2 r1 t1 r2 rest hp1 hp2 hr1 hr2 ht1 hlen hu1 hu2
    have hdo1 : doTextHTMLSearch (.httpResponse 200 (.page p1)) = .ok (r1, t1) := by
      rw [show doTextHTMLSearch (.httpResponse 200 (.page p1)) =
        .ok (parseTextHTMLSearchResponse p1) from rfl, hp1]
    have hdo2 : doTextHTMLSearch (.httpResponse 200 (.page p2)) = .ok (r2, []) := by
      rw [show doTextHTMLSearch (.httpResponse 200 (.page p2)) =
        .ok (parseTextHTMLSearchResponse p2) from rfl, hp2]
    have hr1e : r1.isEmpty = false := by
      cases r1 with
      | nil => exact absurd rfl hr1
      | cons a l => rfl
    have hr2len : 1 ≤ r2.length := by
      cases r2 with
      | nil => exact absurd rfl hr2
      | cons a l => exact Nat.succ_le_succ (Nat.zero_le _)
    have hr2e : r2.isEmpty = false := by
      cases r2 with
      | nil => exact absurd rfl hr2
      | cons a l => rfl
    have ht1e : t1.isEmpty = false := by
      cases t1 with
      | nil => exact absurd rfl ht1
      | cons a l => rfl
    have hlt1 : ¬ maxResults ≤ r1.length := by omega
    have hrun : textSearchLoop maxResults []
        (.httpResponse 200 (.page p1) :: .httpResponse 200 (.page p2) :: rest) =
        some (finishResults (r1 ++ r2)) := by
      rw [textSearchLoop, hdo1]
      simp only [hr1e, Bool.false_eq_true, if_false, List.nil_append, if_neg hlt1, ht1e]
      rw [textSearchLoop, hdo2]
      simp only [hr2e, Bool.false_eq_true, if_false, List.isEmpty_nil, if_true]
      by_cases hcase : maxResults ≤ (r1 ++ r2).length
      · rw [if_pos hcase, List.take_of_length_le]
        rw [List.length_append]
        exact hlen
      · rw [if_neg hcase]
    refine ⟨hrun, ?_, ?_⟩
    · unfold finishResults
      rw [if_neg]
      simp [hr1]
    · rw [List.map_append, List.count_append]
      have h1 : 1 ≤ (r1.map TextSearchResult.URL).count u := List.count_pos_iff.mpr hu1
      have h2 : 1 ≤ (r2.map TextSearchResult.URL).count u := List.count_pos_iff.mpr hu2
      omega

/-- C6 witness: two concrete pages sharing the url "u1" — each parsed
page carries it once, and the final returned set contains it twice. -/
theorem parseDedup_page_local_only_witness :
    (((parseTextHTMLSearchResponse ⟨[⟨true, "t1", "u1", true, "s1"⟩], true,
        [("a", "b")]⟩).1).map TextSearchResult.URL).Nodup ∧
    textSearchLoop 10 []
        [.httpResponse 200 (.page ⟨[⟨true, "t1", "u1", true, "s1"⟩], true, [("a", "b")]⟩),
         .httpResponse 200 (.page ⟨[⟨true, "t2", "u1", true, "s2"⟩], false, []⟩)] =
      some (finishResults ([(⟨"t1", "u1", "s1"⟩ : TextSearchResult)] ++
        [(⟨"t2", "u1", "s2"⟩ : TextSearchResult)])) ∧
    (finishResults ([(⟨"t1", "u1", "s1"⟩ : TextSearchResult)] ++
        [(⟨"t2", "u1", "s2"⟩ : TextSearchResult)])).Results =
      [(⟨"t1", "u1", "s1"⟩ : TextSearchResult)] ++ [(⟨"t2", "u1", "s2"⟩ : TextSearchResult)] ∧
    2 ≤ (([(⟨"t1", "u1", "s1"⟩ : TextSearchResult)] ++
        [(⟨"t2", "u1", "s2"⟩ : TextSearchResult)]).map TextSearchResult.URL).count "u1" := by
  have h := parseDedup_page_local_only.2 10 "u1"
    ⟨[⟨true, "t1", "u1", true, "s1"⟩], true, [("a", "b")]⟩
    ⟨[⟨true, "t2", "u1", true, "s2"⟩], false, []⟩
    [⟨"t1", "u1", "s1"⟩] [("a", "b")] [⟨"t2", "u1", "s2"⟩] []
    rfl rfl (by decide) (by decide) (by decide) (by decide) (by decide) (by decide)
  exact ⟨parseDedup_page_local_only.1
    ⟨[⟨true, "t1", "u1", true, "s1"⟩], true, [("a", "b")]⟩, h.1, h.2.1, h.2.2⟩

/-- Time never runs backwards in a completed timed run: the return time
is at least the time the loop was entered. -/
theorem timedSearchLoop_time_mono (fetches : List FetchResult) :
    ∀ (maxResults reqDur : Nat) cancelAt (t : Nat) acc r tf,
      timedSearchLoop maxResults reqDur cancelAt fetches t acc = some (r, tf) →
      t ≤ tf := by
  induction fetches with
  | nil =>
    intro maxResults reqDur cancelAt t acc r tf h
    simp [timedSearchLoop] at h
  | cons f rest ih =>
    intro maxResults reqDur cancelAt t acc r tf h
    rw [timedSearchLoop] at h
    split_ifs at h with hc
    · injection h with h
      have : tf = max t (cancelAt.getD 0) := (congrArg Prod.snd h).symm
      rw [this]
      exact le_max_left _ _
    · cases hdo : doTextHTMLSearch f with
      | error msg =>
        rw [hdo] at h
        injection h with h
        have : tf = t + reqDur := (congrArg Prod.snd h).symm
        omega
      | ok pair =>
        rcases pair with ⟨resultsTmp, nextReqBody⟩
        rw [hdo] at h
        simp only at h
        split_ifs at h with h1 h2 h3
        · injection h with h
          have : tf = t + reqDur := (congrArg Prod.snd h).symm
          omega
        · injection h with h
          have : tf = t + reqDur := (congrArg Prod.snd h).symm
          omega
        · injection h with h
          have : tf = t + reqDur := (congrArg Prod.snd h).symm
          omega
        · have := ih maxResults reqDur cancelAt (t + reqDur + pacingDelay)
            (acc ++ resultsTmp) r tf h
          omega

/-- C3 counterexample: with requests taking 1 time unit and the context
cancelled at time 2, the first page completes at time 1 and the pacing
delay spans times 1 to 4 (so the cancellation falls inside the delay);
yet the run returns only at time 4 — the delay wait is completed in full
and the cancellation is first observed at the next request, not during
the wait, contradicting "aborting promptly rather than completing the
remaining wait". -/
theorem timedSearch_cancel_in_delay_counterexample :
    timedTextSearch 10 1 (some 2) cancelDuringDelayFetches =
      some (ctxErrorResponse, 4) ∧
    1 ≤ 2 ∧ 2 < 1 + pacingDelay ∧ ¬(4 < 1 + pacingDelay) := by
  exact ⟨rfl, by decide, by decide, by decide⟩

/-- C3 (amended): cancellation is observed while a request is in flight
— a context cancelled before the response would complete aborts the
round at the cancellation instant (clamped to the request's start) with
the wrapped context error, issuing nothing further; but the inter-page
pacing delay does not observe cancellation: once a round succeeds and
the loop proceeds into the pacing delay, the run returns no earlier than
the delay's end, whatever the cancellation instant. -/
theorem timedSearch_cancellation_observation :
    (∀ (maxResults reqDur tc t : Nat) acc f rest,
       tc < t + reqDur →
       timedSearchLoop maxResults reqDur (some tc) (f :: rest) t acc =
         some (ctxErrorResponse, max t tc)) ∧
    (∀ (maxResults reqDur : Nat) cancelAt (t : Nat) acc f resultsTmp nextReqBody rest r tf,
       doTextHTMLSearch f = .ok (resultsTmp, nextReqBody) → resultsTmp ≠ [] →
       (acc ++ resultsTmp).length < maxResults → nextReqBody ≠ [] →
       cancelBefore cancelAt (t + reqDur) = false →
       timedSearchLoop maxResults reqDur cancelAt (f :: rest) t acc = some (r, tf) →
       t + reqDur + pacingDelay ≤ tf) := by
  constructor
  · intro maxResults reqDur tc t acc f rest hlt
    rw [timedSearchLoop,
      if_pos (show cancelBefore (some tc) (t + reqDur) = true from decide_eq_true hlt)]
    rfl
  · intro maxResults reqDur cancelAt t acc f resultsTmp nextReqBody rest r tf
      hdo hne hlen htok hc h
    rw [timedSearchLoop] at h
    rw [if_neg (by rw [hc]; exact Bool.false_ne_true), hdo] at h
    have hempty : resultsTmp.isEmpty = false := by
      cases resultsTmp with
      | nil => exact absurd rfl hne
      | cons a l => rfl
    have htoke : nextReqBody.isEmpty = false := by
      cases nextReqBody with
      | nil => exact absurd rfl htok
      | cons a l => rfl
    simp only [hempty, Bool.false_eq_true, if_false, htoke,
      if_neg (Nat.not_le_of_lt hlen)] at h
    exact timedSearchLoop_time_mono rest maxResults reqDur cancelAt
      (t + reqDur + pacingDelay) (acc ++ resultsTmp) r tf h

/-- C3 witness: the amended theorem applied to concrete runs — a context
already cancelled at time 0 aborts the first request immediately, and
the counterexample run (cancel at time 2, during the delay) returns no
earlier than the delay's end at time 4. -/
theorem timedSearch_cancellation_observation_witness :
    timedSearchLoop 10 1 (some 0) [.transportError "never observed"] 0 [] =
      some (ctxErrorResponse, max 0 0) ∧
    0 + 1 + pacingDelay ≤ 4 :=
  ⟨timedSearch_cancellation_observation.1 10 1 0 0 [] (.transportError "never observed")
     [] (by decide),
   timedSearch_cancellation_observation.2 10 1 (some 2) 0 []
     (.httpResponse 200 (.page ⟨[⟨true, "t", "http://a", true, "s"⟩], true, [("a", "b")]⟩))
     [⟨"t", "http://a", "s"⟩] [("a", "b")] [.httpResponse 200 (.page ⟨[], false, []⟩)]
     ctxErrorResponse 4 rfl (by decide) (by decide) (by decide) (by decide) rfl⟩

end Fkmcps
